import Mathlib

/-!
Shallow embedding of the `pl-utils` repository (src/plc.py and
src/populate-slice.py), together with proofs about its selection
pipeline, domain model and RPC-facade error handling.

Modelling conventions:
* Calendar instants and timestamps live on a single integer timeline of
  seconds since the UNIX epoch.  Python's `datetime.utcfromtimestamp` is
  an injective, strictly monotone map from numeric timestamps to
  instants, so comparisons between converted datetimes coincide with
  comparisons between the underlying integers; the embedding therefore
  keeps the integer.
* Remote records arrive as mappings.  Node records may omit any key
  (`Node.__init__` wraps the mapping in `defaultdict(lambda: None)`), so
  a node record is a structure of `Option` fields.  Slice records are
  produced by `GetSlices` with the full schema, so a slice record is a
  structure of plain fields.
* Python raises become `Except` errors, labelled with the error taxonomy.
* The remote boundary is an environment of canned responses, and the
  calls a run issues are accumulated in a trace, so that claims about
  "no remote call happened" are statements about the trace.
-/

namespace PLUtils

/-! ## Time and window utilities (plc.py lines 29-46) -/

/-- One day, in seconds (`timedelta(days=1)` on the seconds timeline). -/
def secondsPerDay : Int := 86400

/-- `RENEWAL_CAP = td(weeks=8)`: limit on how far into the future the
slice can be renewed, in seconds. -/
def RENEWAL_CAP : Int := 8 * 7 * secondsPerDay

/-- `RENEWAL_RESOL = td(days=1)`: renewal resolution, in seconds. -/
def RENEWAL_RESOL : Int := secondsPerDay

/-- `renew_upto(days=RENEWAL_CAP)`: `dt.today() + days`.  The current
instant `today` is passed explicitly (the code reads the wall clock). -/
def renew_upto (today days : Int) : Int := today + days

/-! ## Error taxonomy (spec section 7) for the `ValueError` raise sites -/

/-- The kinds of failure the client raises, one per `raise` site. -/
inductive PLCError where
  /-- a required remote field is bad or missing -/
  | malformedRecord : PLCError
  /-- `check_auth`, fault code 103: `Authentication failed!` -/
  | authenticationFailed : PLCError
  /-- `check_auth`, any other fault: carries the remote fault message -/
  | remoteServiceError (msg : String) : PLCError
  /-- `get_slice`: `Failed to retrieve slices!` -/
  | notFound : PLCError
  /-- `get_slice`: `Retrieved more than one slice!` -/
  | ambiguousResult : PLCError
  /-- a mutating call did not return 1 -/
  | updateRejected : PLCError
  /-- a precondition failed before any remote call -/
  | invalidArgument : PLCError
  /-- populate-slice: `Slice size is smaller than required!` -/
  | capacityExceeded : PLCError
deriving DecidableEq

/-- An XML-RPC fault response: a numeric code and a message. -/
structure Fault where
  faultCode : Int
  faultString : String
deriving DecidableEq

/-! ## Slice (plc.py lines 49-84) -/

/-- A record returned by `GetSlices`, with the fields named by
`SLICE_ATTRIBS`.  `expires` is the numeric epoch timestamp the remote
service sends. -/
structure SliceRec where
  name : String
  slice_id : Int
  expires : Int
  site_id : Int
  max_nodes : Int
  node_ids : List Int
  person_ids : List Int
  description : String
  slice_tag_ids : List Int
deriving DecidableEq

/-- `Slice`: slice information, as stored by `Slice.__init__`.  The
`expires` field is converted by `utcfromtimestamp`; on the integer
timeline the conversion is the identity. -/
structure Slice where
  name : String
  slice_id : Int
  expires : Int
  site : Int
  max_nodes : Int
  nodes : List Int
  users : List Int
  desc : String
  tags : List Int
deriving DecidableEq

/-- `Slice.__init__(info)`: field-by-field copy out of the record. -/
def Slice.ofInfo (info : SliceRec) : Slice :=
  ⟨info.name, info.slice_id, info.expires, info.site_id, info.max_nodes,
   info.node_ids, info.person_ids, info.description, info.slice_tag_ids⟩

/-- `Slice.can_renew(self)`: `(renew_upto() - self.expires) >= RENEWAL_RESOL`. -/
def Slice.can_renew (s : Slice) (today : Int) : Bool :=
  decide (renew_upto today RENEWAL_CAP - s.expires ≥ RENEWAL_RESOL)

/-! ## Node (plc.py lines 87-137) -/

/-- A mapping handed to `Node.__init__`: every key may be absent.
`to_defdict` turns an absent key into `None`, which the `Option` models. -/
structure NodeRec where
  node_id : Option Int
  hostname : Option String
  boot_state : Option String
  last_contact : Option Int
  last_boot : Option Int
  site_id : Option Int
  slice_ids : Option (List Int)
deriving DecidableEq

/-- `Node`: node information, as stored by `Node.__init__`.  The stored
`last_seen` is `utcfromtimestamp(last_contact)` when the raw value is
truthy and the raw value (None or 0) otherwise; on the integer timeline
both cases keep the number itself. -/
structure Node where
  node_id : Option Int
  host : Option String
  boot : Option String
  last_seen : Option Int
  last_boot : Option Int
  site : Option Int
  slices : Option (List Int)
deriving DecidableEq

/-- `Node.__init__(info)`: `info = to_defdict(info)` followed by a
field-by-field copy; a missing key gives `None`.  No field is required,
so construction is total. -/
def Node.ofInfo (info : NodeRec) : Node :=
  ⟨info.node_id, info.hostname, info.boot_state, info.last_contact,
   info.last_boot, info.site_id, info.slice_ids⟩

/-- `Node.__init__` never raises: wrapped in `Except` over the error
taxonomy to make that explicit (the constructor body has no failure
path). -/
def Node.tryOfInfo (info : NodeRec) : Except PLCError Node :=
  Except.ok (Node.ofInfo info)

/-- Python truthiness of the stored `last_seen` value: `None` is falsy,
and so is the numeric timestamp `0` (which `Node.__init__` leaves
unconverted, since `if self.last_seen:` fails on it); every other
timestamp was converted to a datetime, which is truthy. -/
def Node.lastSeenTruthy (n : Node) : Bool :=
  match n.last_seen with
  | none => false
  | some v => decide (v ≠ 0)

/-- `Node.was_seen_after(self, ts)`:
`self.last_seen and (self.last_seen >= ts)`.  The `and` short-circuits on
a falsy `last_seen` (absent, or raw timestamp `0`). -/
def Node.was_seen_after (n : Node) (ts : Int) : Bool :=
  n.lastSeenTruthy && decide (n.last_seen.getD 0 ≥ ts)

/-! ## PLC facade (plc.py lines 140-231)

Each remote call's response is passed in explicitly; the calls a
function issues are returned as a trace. -/

/-- The remote calls the client can issue.  `updateSlice` is the only
mutating one. -/
inductive Call where
  | authCheck : Call
  | getNodes : Call
  | getSlices : Call
  | updateSlice : Call
deriving DecidableEq

/-- `PLC.check_auth(self)`: `AuthCheck(auth) == 1`, with fault code 103
mapped to the authentication failure and any other fault re-raised with
the remote fault message. -/
def check_auth (resp : Except Fault Int) : Except PLCError Bool :=
  match resp with
  | Except.ok v => Except.ok (decide (v = 1))
  | Except.error e =>
      if e.faultCode = 103 then Except.error PLCError.authenticationFailed
      else Except.error (PLCError.remoteServiceError e.faultString)

/-- `PLC.get_slice(self, ident)`: raise if `GetSlices` returned no
record, raise if it returned more than one, otherwise build the slice
from the single record. -/
def get_slice (slices : List SliceRec) : Except PLCError Slice :=
  if h : slices = [] then Except.error PLCError.notFound
  else if slices.length ≠ 1 then Except.error PLCError.ambiguousResult
  else Except.ok (Slice.ofInfo (slices.head h))

/-- `PLC.add_nodes(self, sid, nodes)`: raise before any remote call when
`nodes` is empty; otherwise issue `UpdateSlice` and, when it returns 1,
re-fetch the slice (a `GetSlices` call).  The second component is the
trace of remote calls issued. -/
def add_nodes {α : Type} (updateResp : Int) (refetchResp : List SliceRec)
    (nodes : List α) : Except PLCError Slice × List Call :=
  if nodes.isEmpty then (Except.error PLCError.invalidArgument, [])
  else if updateResp = 1 then
    (get_slice refetchResp, [Call.updateSlice, Call.getSlices])
  else (Except.error PLCError.updateRejected, [Call.updateSlice])

/-! ## Selection engine (populate-slice.py `main`, lines 50-91)

The shuffle is modelled by a function `σ` on node lists; the theorems
assume only that `σ l` is a permutation of `l` (or merely preserves
length), which every outcome of `random.shuffle` satisfies. -/

/-- Concatenation of a list of lists (the repeated
`sel_nodes.extend(...)`). -/
def concatAll {α : Type} : List (List α) → List α
  | [] => []
  | l :: ls => l ++ concatAll ls

/-- First-seen-order deduplication helper: `seen` holds the keys already
emitted. -/
def firstSeenAux {α : Type} [DecidableEq α] (seen : List α) : List α → List α
  | [] => []
  | a :: l =>
      if a ∈ seen then firstSeenAux seen l
      else a :: firstSeenAux (a :: seen) l

/-- The distinct elements of `l`, each at its first occurrence.  This is
the key order in which `site_grps` is traversed (one group per distinct
`site_id`, in insertion order). -/
def firstSeen {α : Type} [DecidableEq α] (l : List α) : List α :=
  firstSeenAux [] l

/-- `cutoff = dt.today() - td(days=args.staleness)`. -/
def cutoffOf (today staleness : Int) : Int :=
  today - staleness * secondsPerDay

/-- `active_nodes = [n for n in live_nodes if n.was_seen_after(cutoff)]`. -/
def filterActive (cutoff : Int) (live : List Node) : List Node :=
  live.filter (fun n => n.was_seen_after cutoff)

/-- The group `site_grps[s]`: the active nodes whose `site_id` is `s`,
in arrival order (the loop appends in list order). -/
def siteGroup (ns : List Node) (s : Option Int) : List Node :=
  ns.filter (fun n => n.site = s)

/-- The distinct site keys of `site_grps`. -/
def siteKeys (ns : List Node) : List (Option Int) :=
  firstSeen (ns.map Node.site)

/-- All the site groups, one per distinct site key. -/
def siteGroups (ns : List Node) : List (List Node) :=
  (siteKeys ns).map (siteGroup ns)

/-- The nodes picked from one site group: shuffle only when the group is
strictly larger than the cap, then `nodes[:nps]`. -/
def pickFrom (σ : List Node → List Node) (nps : Nat) (g : List Node) :
    List Node :=
  (if g.length > nps then σ g else g).take nps

/-- The node ids contributed by one site group
(`[n.node_id for n in nodes[:args.nps]]`). -/
def selectFromGroup (σ : List Node → List Node) (nps : Nat) (g : List Node) :
    List (Option Int) :=
  (pickFrom σ nps g).map Node.node_id

/-- `sel_nodes`, the flat candidate assignment set: the per-site
selections concatenated over the groups. -/
def sel_nodes (σ : List Node → List Node) (nps : Nat) (ns : List Node) :
    List (Option Int) :=
  concatAll ((siteGroups ns).map (selectFromGroup σ nps))

/-- The candidate nodes themselves, before projecting to ids. -/
def selPre (σ : List Node → List Node) (nps : Nat) (ns : List Node) :
    List Node :=
  concatAll ((siteGroups ns).map (pickFrom σ nps))

/-- The canned remote responses one run consumes. -/
structure Env where
  /-- response of the `AuthCheck` call issued by `PLC.__init__` -/
  authResp : Except Fault Int
  /-- response of `GetNodes` in `get_live_nodes` -/
  nodesResp : List NodeRec
  /-- response of `GetSlices` for the slice name -/
  slicesByName : List SliceRec
  /-- response of `GetSlices` for the slice id (the re-fetch in `add_nodes`) -/
  slicesById : List SliceRec
  /-- response of the `UpdateSlice` call in `add_nodes` -/
  updateResp : Int

/-- The candidate assignment set one run computes: live nodes from the
environment, filtered by the cutoff, grouped by site and sampled. -/
def candidateIds (σ : List Node → List Node) (env : Env)
    (today staleness : Int) (nps : Nat) : List (Option Int) :=
  sel_nodes σ nps
    (filterActive (cutoffOf today staleness) (env.nodesResp.map Node.ofInfo))

/-- `main(args)` of populate-slice.py: authenticate, fetch live nodes,
filter by staleness, group by site, sample per site, fetch the slice,
validate capacity, and only then submit `add_nodes`.  Returns the
overall outcome and the trace of remote calls issued. -/
def runMain (σ : List Node → List Node) (env : Env)
    (today staleness : Int) (nps : Nat) :
    Except PLCError Slice × List Call :=
  match check_auth env.authResp with
  | Except.error e => (Except.error e, [Call.authCheck])
  | Except.ok _ =>
      match get_slice env.slicesByName with
      | Except.error e =>
          (Except.error e, [Call.authCheck, Call.getNodes, Call.getSlices])
      | Except.ok s =>
          if s.max_nodes <
              ((candidateIds σ env today staleness nps).length : Int) then
            (Except.error PLCError.capacityExceeded,
             [Call.authCheck, Call.getNodes, Call.getSlices])
          else
            ((add_nodes env.updateResp env.slicesById
                (candidateIds σ env today staleness nps)).1,
             [Call.authCheck, Call.getNodes, Call.getSlices] ++
               (add_nodes env.updateResp env.slicesById
                 (candidateIds σ env today staleness nps)).2)

/-! ## Concrete fixtures used by witnesses and counterexamples -/

/-- A node record whose `last_contact` is present but equal to the
numeric timestamp `0` (the UNIX epoch). -/
def recZeroContact : NodeRec :=
  ⟨some 7, some "h.example", some "boot", some 0, none, some 3, none⟩

/-- A node record whose `node_id` key is absent while every other field
is present. -/
def recNoId : NodeRec :=
  ⟨none, some "host.example", some "boot", some 5, none, some 3, some []⟩

/-- A well-formed slice record. -/
def sliceRecA : SliceRec := ⟨"alpha", 42, 1000, 7, 3, [1, 2], [9], "d", []⟩

/-- A second well-formed slice record. -/
def sliceRecB : SliceRec := ⟨"beta", 43, 2000, 8, 10, [], [], "", []⟩

/-- A fault with the bad-credentials code 103. -/
def faultBad : Fault := ⟨103, "boo"⟩

/-- A fault with a code other than 103. -/
def faultOther : Fault := ⟨42, "oops"⟩

/-- A slice whose expiry sits exactly at the renewal ceiling as seen
from instant 0. -/
def wSlice7 : Slice := ⟨"s", 1, 4838400, 7, 3, [], [], "", []⟩

/-- A node with the given id, site and last-contact timestamp. -/
def mkN (id site lc : Int) : Node :=
  Node.ofInfo ⟨some id, none, none, some lc, none, some site, none⟩

/-- A site group of size 1. -/
def wG1 : List Node := [mkN 1 10 100]

/-- A site group of size 2. -/
def wG2 : List Node := [mkN 2 11 100, mkN 3 11 100]

/-- A site group of size 3. -/
def wG3 : List Node := [mkN 4 12 100, mkN 5 12 100, mkN 6 12 100]

/-- Five node records spread over three sites, all recently seen. -/
def wNodeRecs : List NodeRec :=
  [⟨some 1, none, none, some 100, none, some 1, none⟩,
   ⟨some 2, none, none, some 100, none, some 1, none⟩,
   ⟨some 3, none, none, some 100, none, some 2, none⟩,
   ⟨some 4, none, none, some 100, none, some 2, none⟩,
   ⟨some 5, none, none, some 100, none, some 3, none⟩]

/-- A slice record whose capacity (3) is below the 5 candidates that
`wNodeRecs` produces under cap 2. -/
def wSliceCap : SliceRec := ⟨"target", 9, 1000, 1, 3, [], [], "", []⟩

/-- An environment in which authentication succeeds, `GetNodes` returns
`wNodeRecs` and `GetSlices` returns the small slice `wSliceCap`. -/
def wEnv : Env := ⟨Except.ok 1, wNodeRecs, [wSliceCap], [wSliceCap], 1⟩

/-! ## Helper lemmas about `concatAll` and `firstSeen` -/

lemma concatAll_length {α : Type} :
    ∀ ls : List (List α), (concatAll ls).length = (ls.map List.length).sum := by
  intro ls
  induction ls with
  | nil => rfl
  | cons l ls ih => simp [concatAll, ih]

lemma mem_concatAll {α : Type} {a : α} :
    ∀ ls : List (List α), a ∈ concatAll ls ↔ ∃ l, l ∈ ls ∧ a ∈ l := by
  intro ls
  induction ls with
  | nil => simp [concatAll]
  | cons l ls ih =>
      simp only [concatAll, List.mem_append, ih, List.mem_cons]
      constructor
      · rintro (h | ⟨l', h1, h2⟩)
        · exact ⟨l, Or.inl rfl, h⟩
        · exact ⟨l', Or.inr h1, h2⟩
      · rintro ⟨l', rfl | h1, h2⟩
        · exact Or.inl h2
        · exact Or.inr ⟨l', h1, h2⟩

lemma count_concatAll {α : Type} [DecidableEq α] (a : α) :
    ∀ ls : List (List α),
      (concatAll ls).count a = (ls.map (List.count a)).sum := by
  intro ls
  induction ls with
  | nil => rfl
  | cons l ls ih => simp [concatAll, List.count_append, ih]

lemma concatAll_map {α β : Type} (f : α → β) :
    ∀ ls : List (List α),
      concatAll (ls.map (List.map f)) = (concatAll ls).map f := by
  intro ls
  induction ls with
  | nil => rfl
  | cons l ls ih => simp [concatAll, ih]

lemma mem_firstSeenAux {α : Type} [DecidableEq α] (a : α) :
    ∀ (l seen : List α), a ∈ firstSeenAux seen l ↔ a ∈ l ∧ a ∉ seen := by
  intro l
  induction l with
  | nil => intro seen; simp [firstSeenAux]
  | cons b l ih =>
      intro seen
      by_cases hb : b ∈ seen
      · simp only [firstSeenAux, if_pos hb, ih, List.mem_cons]
        constructor
        · rintro ⟨h1, h2⟩; exact ⟨Or.inr h1, h2⟩
        · rintro ⟨rfl | h1, h2⟩
          · exact absurd hb h2
          · exact ⟨h1, h2⟩
      · simp only [firstSeenAux, if_neg hb, List.mem_cons, ih]
        constructor
        · rintro (rfl | ⟨h1, h2⟩)
          · exact ⟨Or.inl rfl, hb⟩
          · refine ⟨Or.inr h1, fun hc => h2 (Or.inr hc)⟩
        · rintro ⟨rfl | h1, h2⟩
          · exact Or.inl rfl
          · by_cases hab : a = b
            · exact Or.inl hab
            · refine Or.inr ⟨h1, fun hc => ?_⟩
              rcases hc with h | h
              · exact hab h
              · exact h2 h

lemma nodup_firstSeenAux {α : Type} [DecidableEq α] :
    ∀ (l seen : List α), (firstSeenAux seen l).Nodup := by
  intro l
  induction l with
  | nil => intro seen; simp [firstSeenAux]
  | cons b l ih =>
      intro seen
      by_cases hb : b ∈ seen
      · simpa [firstSeenAux, if_pos hb] using ih seen
      · simp only [firstSeenAux, if_neg hb, List.nodup_cons]
        refine ⟨fun hmem => ?_, ih (b :: seen)⟩
        exact ((mem_firstSeenAux b l (b :: seen)).1 hmem).2
          (List.mem_cons_self b seen)

lemma nodup_siteKeys (ns : List Node) : (siteKeys ns).Nodup :=
  nodup_firstSeenAux _ []

lemma mem_siteKeys {ns : List Node} {s : Option Int} :
    s ∈ siteKeys ns ↔ s ∈ ns.map Node.site := by
  simp [siteKeys, firstSeen, mem_firstSeenAux]

/-! ## C1: per-site sampling -/

/-- C1: for every site group and per-site cap — with the shuffle
modelled as an arbitrary length-preserving rearrangement — a group at or
below the cap is selected whole and unchanged (no shuffling), a group
above the cap is first shuffled and then cut to the first `cap`
elements, each group thus contributes exactly `min (size, cap)` node
ids, and groups of sizes 1, 2, 3 under cap 2 yield selection sizes
`[1, 2, 2]`, 5 in total. -/
theorem selection_per_site_cap (σ : List Node → List Node)
    (hσ : ∀ l, (σ l).length = l.length) (nps : Nat) :
    (∀ g : List Node, g.length ≤ nps →
        selectFromGroup σ nps g = g.map Node.node_id) ∧
    (∀ g : List Node, nps < g.length →
        selectFromGroup σ nps g = ((σ g).take nps).map Node.node_id) ∧
    (∀ g : List Node, (selectFromGroup σ nps g).length = min g.length nps) ∧
    (∀ g1 g2 g3 : List Node,
        g1.length = 1 → g2.length = 2 → g3.length = 3 →
        [g1, g2, g3].map (fun g => (selectFromGroup σ 2 g).length) =
          [1, 2, 2] ∧
        (concatAll ([g1, g2, g3].map (selectFromGroup σ 2))).length = 5) := by
  have hlen : ∀ (m : Nat) (g : List Node),
      (selectFromGroup σ m g).length = min g.length m := by
    intro m g
    unfold selectFromGroup pickFrom
    by_cases h : g.length > m
    · simp only [if_pos h, List.length_map, List.length_take, hσ g]
      omega
    · simp only [if_neg h, List.length_map, List.length_take]
      omega
  refine ⟨?_, ?_, hlen nps, ?_⟩
  · intro g h
    unfold selectFromGroup pickFrom
    rw [if_neg (by omega), List.take_of_length_le h]
  · intro g h
    unfold selectFromGroup pickFrom
    rw [if_pos h]
  · intro g1 g2 g3 h1 h2 h3
    constructor
    · simp only [List.map_cons, List.map_nil, hlen 2, h1, h2, h3]
      decide
    · rw [concatAll_length, List.map_map]
      simp only [List.map_cons, List.map_nil, Function.comp_apply, hlen 2,
        h1, h2, h3]
      decide

/-- Witness for C1 with the identity shuffle and concrete groups of
sizes 1, 2, and 3. -/
theorem selection_per_site_cap_witness :
    selectFromGroup id 2 wG1 = wG1.map Node.node_id ∧
    (selectFromGroup id 2 wG3).length = min wG3.length 2 ∧
    [wG1, wG2, wG3].map (fun g => (selectFromGroup id 2 g).length) =
      [1, 2, 2] ∧
    (concatAll ([wG1, wG2, wG3].map (selectFromGroup id 2))).length = 5 := by
  have h := selection_per_site_cap id (fun l => rfl) 2
  exact ⟨h.1 wG1 (by decide), h.2.2.1 wG3,
         (h.2.2.2 wG1 wG2 wG3 (by decide) (by decide) (by decide)).1,
         (h.2.2.2 wG1 wG2 wG3 (by decide) (by decide) (by decide)).2⟩

/-! ## C3: `was_seen_after` -/

/-- C3 counterexample: the claim says `wasSeenAfter(c)` is true whenever
`last_contact` is present and `last_contact >= c`, and in particular at
the inclusive boundary `last_contact = c`.  The node built from
`recZeroContact` has `last_contact` present and equal to the cutoff `0`,
yet `was_seen_after 0` is `false`, because Python's
`self.last_seen and (...)` short-circuits on the falsy timestamp `0`. -/
theorem was_seen_after_claim_counterexample :
    (Node.ofInfo recZeroContact).last_seen = some 0 ∧
    ((0 : Int) ≥ (0 : Int)) ∧
    (Node.ofInfo recZeroContact).was_seen_after 0 = false := by
  refine ⟨rfl, le_refl 0, ?_⟩
  decide

/-- C3 amended: for every node and cutoff `c`, `was_seen_after c` is
true iff `last_contact` is present with a nonzero timestamp and
`last_contact ≥ c`; in particular a node with absent `last_contact`
returns false for every cutoff, and the boundary `last_contact = c` is
inclusive whenever the stored timestamp is nonzero. -/
theorem was_seen_after_amended (n : Node) (c : Int) :
    n.was_seen_after c = true ↔
      ∃ v, n.last_seen = some v ∧ v ≠ 0 ∧ c ≤ v := by
  cases h : n.last_seen with
  | none =>
      simp [Node.was_seen_after, Node.lastSeenTruthy, h]
  | some v =>
      simp [Node.was_seen_after, Node.lastSeenTruthy, h, ge_iff_le]

/-! ## C4 and C8: `Node` construction -/

/-- C4 counterexample: the claim says `Node` construction fails with
`MalformedRecord` whenever the `node_id` key is absent.  But
`Node.__init__` wraps the mapping in `defaultdict(lambda: None)`, so the
record `recNoId` (no `node_id`, every other field present) constructs
successfully with `node_id = None`. -/
theorem node_missing_id_claim_counterexample :
    recNoId.node_id = none ∧
    Node.tryOfInfo recNoId =
      Except.ok ⟨none, some "host.example", some "boot", some 5, none,
                 some 3, some []⟩ := by
  exact ⟨rfl, rfl⟩

/-- C4 amended: for every input mapping — with `node_id` present or
absent — construction succeeds; when `node_id` is absent the constructed
node's `node_id` is absent, and every field is carried over unchanged,
so a mapping missing only optional fields yields exactly those fields
absent. -/
theorem node_missing_id_defaults (r : NodeRec) :
    Node.tryOfInfo r = Except.ok (Node.ofInfo r) ∧
    (r.node_id = none → (Node.ofInfo r).node_id = none) ∧
    (Node.ofInfo r).node_id = r.node_id ∧
    (Node.ofInfo r).host = r.hostname ∧
    (Node.ofInfo r).boot = r.boot_state ∧
    (Node.ofInfo r).last_seen = r.last_contact ∧
    (Node.ofInfo r).last_boot = r.last_boot ∧
    (Node.ofInfo r).site = r.site_id ∧
    (Node.ofInfo r).slices = r.slice_ids :=
  ⟨rfl, fun h => h, rfl, rfl, rfl, rfl, rfl, rfl, rfl⟩

/-- Witness for the amended C4 theorem at the concrete record
`recNoId`, discharging the absent-`node_id` conjunct there. -/
theorem node_missing_id_defaults_witness :
    Node.tryOfInfo recNoId = Except.ok (Node.ofInfo recNoId) ∧
    (Node.ofInfo recNoId).node_id = none ∧
    (Node.ofInfo recNoId).host = recNoId.hostname ∧
    (Node.ofInfo recNoId).boot = recNoId.boot_state ∧
    (Node.ofInfo recNoId).last_seen = recNoId.last_contact ∧
    (Node.ofInfo recNoId).last_boot = recNoId.last_boot ∧
    (Node.ofInfo recNoId).site = recNoId.site_id ∧
    (Node.ofInfo recNoId).slices = recNoId.slice_ids :=
  ⟨(node_missing_id_defaults recNoId).1,
   (node_missing_id_defaults recNoId).2.1 rfl,
   (node_missing_id_defaults recNoId).2.2.2.1,
   (node_missing_id_defaults recNoId).2.2.2.2.1,
   (node_missing_id_defaults recNoId).2.2.2.2.2.1,
   (node_missing_id_defaults recNoId).2.2.2.2.2.2.1,
   (node_missing_id_defaults recNoId).2.2.2.2.2.2.2.1,
   (node_missing_id_defaults recNoId).2.2.2.2.2.2.2.2⟩

/-- C8: `Node` construction is total — for every input mapping, also one
missing `node_id` or missing every key, construction succeeds, and each
absent key comes out as an absent field; the all-absent mapping yields
the all-absent node. -/
theorem node_construction_total (r : NodeRec) :
    Node.tryOfInfo r =
      Except.ok ⟨r.node_id, r.hostname, r.boot_state, r.last_contact,
                 r.last_boot, r.site_id, r.slice_ids⟩ ∧
    Node.tryOfInfo ⟨none, none, none, none, none, none, none⟩ =
      Except.ok ⟨none, none, none, none, none, none, none⟩ :=
  ⟨rfl, rfl⟩

/-! ## C5: `get_slice` -/

/-- C5: `get_slice` fails with `NotFound` on zero records, with
`AmbiguousResult` on more than one record, and returns the constructed
slice exactly when one record is returned. -/
theorem get_slice_cases (slices : List SliceRec) :
    (slices.length = 0 → get_slice slices = Except.error PLCError.notFound) ∧
    (1 < slices.length →
        get_slice slices = Except.error PLCError.ambiguousResult) ∧
    (∀ r, slices = [r] → get_slice slices = Except.ok (Slice.ofInfo r)) ∧
    (∀ sl, get_slice slices = Except.ok sl →
        ∃ r, slices = [r] ∧ sl = Slice.ofInfo r) := by
  rcases slices with _ | ⟨a, _ | ⟨b, t⟩⟩
  · refine ⟨fun _ => rfl, ?_, ?_, ?_⟩
    · intro h; exact absurd h (by decide)
    · intro r h; exact absurd h (by simp)
    · intro sl h; exact absurd h (by simp [get_slice])
  · refine ⟨?_, ?_, ?_, ?_⟩
    · intro h; simp at h
    · intro h; simp at h
    · intro r h
      obtain rfl : a = r := by simpa using h
      rfl
    · intro sl h
      refine ⟨a, rfl, ?_⟩
      have h2 : get_slice [a] = Except.ok (Slice.ofInfo a) := rfl
      rw [h2] at h
      exact (by simpa using h : Slice.ofInfo a = sl).symm
  · refine ⟨?_, ?_, ?_, ?_⟩
    · intro h; simp at h
    · intro _
      simp [get_slice]
    · intro r h; simp at h
    · intro sl h
      exact absurd h (by simp [get_slice])

/-- Witness for C5 at concrete record lists of lengths 0, 2 and 1. -/
theorem get_slice_cases_witness :
    get_slice ([] : List SliceRec) = Except.error PLCError.notFound ∧
    get_slice [sliceRecA, sliceRecB] = Except.error PLCError.ambiguousResult ∧
    get_slice [sliceRecA] = Except.ok (Slice.ofInfo sliceRecA) :=
  ⟨(get_slice_cases []).1 rfl,
   (get_slice_cases [sliceRecA, sliceRecB]).2.1 (by decide),
   (get_slice_cases [sliceRecA]).2.2.1 sliceRecA rfl⟩

/-! ## C6: `add_nodes` on an empty id list -/

/-- C6: `add_nodes` called with an empty node-id list fails with
`InvalidArgument` and its call trace is empty — the remote boundary is
never contacted. -/
theorem add_nodes_empty_no_remote_call (updateResp : Int)
    (refetchResp : List SliceRec) :
    add_nodes updateResp refetchResp ([] : List (Option Int)) =
      (Except.error PLCError.invalidArgument, ([] : List Call)) :=
  rfl

/-! ## C7: `can_renew` -/

/-- C7: `can_renew` is true iff the renewal ceiling (current instant
plus the 8-week cap) exceeds `expires` by at least the one-day renewal
resolution; in particular it is false when the expiry is within less
than one day of the ceiling, as it is immediately after a renewal to the
ceiling. -/
theorem can_renew_characterization (today : Int) (s : Slice) :
    (s.can_renew today = true ↔
        RENEWAL_RESOL ≤ renew_upto today RENEWAL_CAP - s.expires) ∧
    (renew_upto today RENEWAL_CAP - s.expires < RENEWAL_RESOL →
        s.can_renew today = false) := by
  constructor
  · simp [Slice.can_renew, ge_iff_le]
  · intro h
    simp only [Slice.can_renew, ge_iff_le, decide_eq_false_iff_not, not_le]
    exact h

/-- Witness for C7: a slice renewed exactly to the ceiling (as seen from
instant 0) can no longer be renewed. -/
theorem can_renew_characterization_witness :
    wSlice7.can_renew 0 = false :=
  (can_renew_characterization 0 wSlice7).2 (by decide)

/-! ## C10: `check_auth` -/

/-- C10: `check_auth` raises only when the remote `AuthCheck` call
faults — code 103 maps to `AuthenticationFailed`, any other code to
`RemoteServiceError` carrying the fault message; a non-fault response
yields the boolean `result == 1`, so a non-fault result other than 1
returns `false` rather than failing. -/
theorem check_auth_cases (resp : Except Fault Int) :
    (∀ v, resp = Except.ok v → check_auth resp = Except.ok (decide (v = 1))) ∧
    (∀ v, resp = Except.ok v → v ≠ 1 → check_auth resp = Except.ok false) ∧
    (∀ f, resp = Except.error f → f.faultCode = 103 →
        check_auth resp = Except.error PLCError.authenticationFailed) ∧
    (∀ f, resp = Except.error f → f.faultCode ≠ 103 →
        check_auth resp =
          Except.error (PLCError.remoteServiceError f.faultString)) ∧
    (∀ e, check_auth resp = Except.error e → ∃ f, resp = Except.error f) := by
  cases resp with
  | error f =>
      refine ⟨?_, ?_, ?_, ?_, ?_⟩
      · intro v h; exact absurd h (by simp)
      · intro v h; exact absurd h (by simp)
      · intro f' h h103
        obtain rfl : f = f' := by simpa using h
        simp [check_auth, h103]
      · intro f' h h103
        obtain rfl : f = f' := by simpa using h
        simp [check_auth, h103]
      · intro e _; exact ⟨f, rfl⟩
  | ok v =>
      refine ⟨?_, ?_, ?_, ?_, ?_⟩
      · intro v' h
        obtain rfl : v = v' := by simpa using h
        rfl
      · intro v' h hne
        obtain rfl : v = v' := by simpa using h
        simp [check_auth, hne]
      · intro f h; exact absurd h (by simp)
      · intro f h; exact absurd h (by simp)
      · intro e h; exact absurd h (by simp [check_auth])

/-- Witness for C10: a non-fault result of 0 yields `false`; a fault
with code 103 yields `AuthenticationFailed`; a fault with code 42 yields
`RemoteServiceError` with its message. -/
theorem check_auth_cases_witness :
    check_auth (Except.ok 0) = Except.ok false ∧
    check_auth (Except.error faultBad) =
      Except.error PLCError.authenticationFailed ∧
    check_auth (Except.error faultOther) =
      Except.error (PLCError.remoteServiceError "oops") :=
  ⟨(check_auth_cases (Except.ok 0)).2.1 0 rfl (by decide),
   (check_auth_cases (Except.error faultBad)).2.2.1 faultBad rfl rfl,
   (check_auth_cases (Except.error faultOther)).2.2.2.1 faultOther rfl
     (by decide)⟩

/-! ## C2: capacity validation happens before any mutation -/

/-- C2: whenever the fetched slice's `max_nodes` is strictly below the
size of the candidate set, the run fails with `CapacityExceeded` and its
trace contains no mutating call (`UpdateSlice`) — validation happens
before any mutation, so a failed validation leaves zero remote
mutations. -/
theorem capacity_guard_blocks_mutation (σ : List Node → List Node)
    (env : Env) (today staleness : Int) (nps : Nat) (v : Int)
    (hauth : env.authResp = Except.ok v) (s : Slice)
    (hs : get_slice env.slicesByName = Except.ok s)
    (hcap : s.max_nodes <
        ((candidateIds σ env today staleness nps).length : Int)) :
    (runMain σ env today staleness nps).1 =
      Except.error PLCError.capacityExceeded ∧
    Call.updateSlice ∉ (runMain σ env today staleness nps).2 := by
  have h1 : check_auth env.authResp = Except.ok (decide (v = 1)) := by
    rw [hauth]
    rfl
  have hrun : runMain σ env today staleness nps =
      (Except.error PLCError.capacityExceeded,
       [Call.authCheck, Call.getNodes, Call.getSlices]) := by
    unfold runMain
    rw [h1, hs]
    simp only [if_pos hcap]
  rw [hrun]
  exact ⟨rfl, by decide⟩

/-- Witness for C2: five candidates against a slice of capacity 3 — the
run ends in `CapacityExceeded` with no `UpdateSlice` in its trace. -/
theorem capacity_guard_blocks_mutation_witness :
    (runMain id wEnv 100 0 2).1 = Except.error PLCError.capacityExceeded ∧
    Call.updateSlice ∉ (runMain id wEnv 100 0 2).2 :=
  capacity_guard_blocks_mutation id wEnv 100 0 2 1 rfl
    (Slice.ofInfo wSliceCap) rfl (by decide)

/-! ## C9: membership and uniqueness of the candidate set -/

lemma count_siteGroup_of_site_eq (x : Node) (ns : List Node)
    {s : Option Int} (h : x.site = s) :
    (siteGroup ns s).count x = ns.count x := by
  unfold siteGroup
  induction ns with
  | nil => rfl
  | cons n ns ih =>
      by_cases hn : n.site = s
      · rw [List.filter_cons_of_pos (by simp [hn]), List.count_cons,
          List.count_cons, ih]
      · rw [List.filter_cons_of_neg (by simp [hn]), ih, List.count_cons]
        have hxn : ¬(x = n) := fun he => hn (he ▸ h)
        have hnx : ¬(n = x) := fun he => hxn he.symm
        simp [hxn, hnx]

lemma count_siteGroup_of_site_ne (x : Node) (ns : List Node)
    {s : Option Int} (h : x.site ≠ s) :
    (siteGroup ns s).count x = 0 := by
  rw [List.count_eq_zero]
  intro hmem
  have := List.of_mem_filter hmem
  exact h (by simpa using this)

lemma sum_count_groups_zero (x : Node) (ns : List Node) :
    ∀ keys : List (Option Int), x.site ∉ keys →
      ((keys.map (fun s => (siteGroup ns s).count x)).sum) = 0 := by
  intro keys
  induction keys with
  | nil => intro _; rfl
  | cons k ks ih =>
      intro h
      simp only [List.map_cons, List.sum_cons]
      rw [count_siteGroup_of_site_ne x ns (fun he => h (he ▸ List.mem_cons_self k ks)),
        ih (fun hm => h (List.mem_cons_of_mem k hm))]

lemma sum_count_groups_le (x : Node) (ns : List Node) :
    ∀ keys : List (Option Int), keys.Nodup →
      ((keys.map (fun s => (siteGroup ns s).count x)).sum) ≤ ns.count x := by
  intro keys
  induction keys with
  | nil => intro _; exact Nat.zero_le _
  | cons k ks ih =>
      intro h
      rw [List.nodup_cons] at h
      simp only [List.map_cons, List.sum_cons]
      by_cases hk : x.site = k
      · rw [count_siteGroup_of_site_eq x ns hk,
          sum_count_groups_zero x ns ks (fun hm => h.1 (hk ▸ hm))]
        omega
      · rw [count_siteGroup_of_site_ne x ns hk]
        simpa using ih h.2

lemma count_pickFrom_le (σ : List Node → List Node)
    (hσ : ∀ l, (σ l).Perm l) (nps : Nat) (g : List Node) (x : Node) :
    (pickFrom σ nps g).count x ≤ g.count x := by
  unfold pickFrom
  by_cases h : g.length > nps
  · rw [if_pos h]
    calc ((σ g).take nps).count x ≤ (σ g).count x :=
          (List.take_sublist nps (σ g)).count_le x
      _ = g.count x := (hσ g).count_eq x
  · rw [if_neg h]
    exact (List.take_sublist nps g).count_le x

lemma count_selPre_le (σ : List Node → List Node)
    (hσ : ∀ l, (σ l).Perm l) (nps : Nat) (ns : List Node) (x : Node) :
    (selPre σ nps ns).count x ≤ ns.count x := by
  unfold selPre siteGroups
  rw [count_concatAll, List.map_map, List.map_map]
  calc ((siteKeys ns).map
          (List.count x ∘ pickFrom σ nps ∘ siteGroup ns)).sum
      ≤ ((siteKeys ns).map (fun s => (siteGroup ns s).count x)).sum := by
        refine List.sum_le_sum ?_
        intro s _
        exact count_pickFrom_le σ hσ nps (siteGroup ns s) x
    _ ≤ ns.count x := sum_count_groups_le x ns (siteKeys ns) (nodup_siteKeys ns)

lemma sel_nodes_eq_map_selPre (σ : List Node → List Node) (nps : Nat)
    (ns : List Node) :
    sel_nodes σ nps ns = (selPre σ nps ns).map Node.node_id := by
  unfold sel_nodes selPre selectFromGroup
  rw [← concatAll_map, List.map_map]
  rfl

/-- C9: every node id in the candidate assignment set is the `node_id`
of some node of the active set, and — when each node appears once in the
inventory (its `node_id` list has no duplicates; each node carries one
`site_id`, so it belongs to exactly one site group) — each id appears at
most once in the candidate set. -/
theorem selection_membership_nodup (σ : List Node → List Node)
    (hσ : ∀ l, (σ l).Perm l) (nps : Nat) (live : List Node) (cutoff : Int)
    (hnd : (live.map Node.node_id).Nodup) :
    (∀ x, x ∈ sel_nodes σ nps (filterActive cutoff live) →
        ∃ n, n ∈ filterActive cutoff live ∧ n.node_id = x) ∧
    (sel_nodes σ nps (filterActive cutoff live)).Nodup := by
  constructor
  · intro x hx
    unfold sel_nodes at hx
    rcases (mem_concatAll _).1 hx with ⟨l, hl, hxl⟩
    rcases List.mem_map.1 hl with ⟨g, hg, rfl⟩
    rcases List.mem_map.1 hxl with ⟨n, hn, rfl⟩
    refine ⟨n, ?_, rfl⟩
    have hng : n ∈ g := by
      unfold pickFrom at hn
      by_cases h : g.length > nps
      · rw [if_pos h] at hn
        exact ((hσ g).mem_iff).1 (List.take_subset _ _ hn)
      · rw [if_neg h] at hn
        exact List.take_subset _ _ hn
    rcases List.mem_map.1 (by simpa [siteGroups] using hg :
        g ∈ (siteKeys (filterActive cutoff live)).map
          (siteGroup (filterActive cutoff live))) with ⟨s, _, rfl⟩
    exact List.mem_of_mem_filter hng
  · have hle : ((selPre σ nps (filterActive cutoff live) : Multiset Node)) ≤
        ((filterActive cutoff live : List Node) : Multiset Node) := by
      rw [Multiset.le_iff_count]
      intro x
      simpa [Multiset.coe_count] using
        count_selPre_le σ hσ nps (filterActive cutoff live) x
    have hnd_active : ((filterActive cutoff live).map Node.node_id).Nodup :=
      hnd.sublist ((List.filter_sublist live).map Node.node_id)
    have h2 : Multiset.map Node.node_id
          ((selPre σ nps (filterActive cutoff live) : List Node) :
            Multiset Node) ≤
        Multiset.map Node.node_id
          ((filterActive cutoff live : List Node) : Multiset Node) :=
      Multiset.map_le_map hle
    rw [sel_nodes_eq_map_selPre, ← Multiset.coe_nodup]
    have h3 : (((selPre σ nps (filterActive cutoff live)).map Node.node_id :
          List (Option Int)) : Multiset (Option Int)) ≤
        (((filterActive cutoff live).map Node.node_id :
          List (Option Int)) : Multiset (Option Int)) := by
      simpa using h2
    exact Multiset.nodup_of_le h3 (Multiset.coe_nodup.2 hnd_active)

/-- Witness for C9 with the identity shuffle: the candidate set drawn
from `wG1 ++ wG3` (four distinct nodes over two sites) has no duplicate
ids. -/
theorem selection_membership_nodup_witness :
    (sel_nodes id 2 (filterActive 0 (wG1 ++ wG3))).Nodup :=
  (selection_membership_nodup id (fun l => List.Perm.refl l) 2
    (wG1 ++ wG3) 0 (by decide)).2

end PLUtils
